import Mathlib

/-!
Shallow embedding of the trend-scoring engine in
`maverick_mcp/tools/trend_scorer.py` (class `SP500TrendScorer`).

Modelling conventions:
* Python floats are embedded as `ℚ`; all arithmetic in the scoring pipeline
  is linear/rational, so exact rational arithmetic models it faithfully.
* A pandas `DataFrame` of OHLCV rows is a `List PriceBar` in ascending date
  order; `iloc[-1]` becomes `List.getLastD`.
* Calls into the external `ta` / `numpy` libraries (MACD, ADX, RSI, OBV
  series) are not part of this repository; their outcomes are passed in as
  explicit inputs of type `TACall`: `TACall.err` models the library call
  raising an exception (the `except` branch of the source), `TACall.ok none`
  models a NaN latest value (the `isna` checks), and `TACall.ok (some v)`
  models a successfully computed value.  The decision ladders applied to
  those values are translated line by line from the source.
* `Python round(x, n)` is modelled by `pyRound`.  Python uses
  round-half-to-even on floats while `round : ℚ → ℤ` rounds half up; the two
  agree away from exact decimal midpoints, and the values rounded by this
  engine (multiples of `7/30` pushed through a linear map, giving
  denominators dividing 9 and 3 after scaling) can never be exact midpoints,
  so the choice is immaterial.
-/

/-- One OHLCV row of the fetched DataFrame (columns renamed to
`Open/High/Low/Close/Volume` in `get_stock_data`); `date` is the row index. -/
structure PriceBar where
  date : ℤ
  Open : ℚ
  High : ℚ
  Low : ℚ
  Close : ℚ
  Volume : ℚ
deriving DecidableEq, Repr

/-- Latest values of the `ta.trend.MACD` lines used by `calculate_macd_score`:
`macd_line.iloc[-1]`, `macd_signal.iloc[-1]`, `macd_line.iloc[-2]`.
(The source also reads `macd_signal.iloc[-2]` into `prev_signal` but never
uses it, so it is not modelled.) -/
structure MacdVals where
  macd_line : ℚ
  macd_signal : ℚ
  prev_macd : ℚ
deriving DecidableEq, Repr

/-- Latest values of `ta.trend.ADXIndicator` used by `calculate_adx_score`:
`adx.iloc[-1]`, `adx_pos.iloc[-1]`, `adx_neg.iloc[-1]`. -/
structure AdxVals where
  adx : ℚ
  plus_di : ℚ
  minus_di : ℚ
deriving DecidableEq, Repr

/-- Outcome of a call into the external `ta`/`numpy` library:
`ok v` is a successful computation, `err` is the call raising an exception
(handled by the `except` branch of each scorer). -/
inductive TACall (α : Type) where
  | ok (val : α) : TACall α
  | err : TACall α
deriving DecidableEq, Repr

/-- The externally computed indicator inputs consumed by one
`calculate_trend_score` call.  An `Option` inside `ok` models a NaN latest
value (caught by the `isna` checks of the source); the OBV series has no
NaN check in the source, so it carries a plain list (the full
`on_balance_volume()` series, same length as the data). -/
structure IndicatorInputs where
  macdVals : TACall (Option MacdVals)
  adxVals : TACall (Option AdxVals)
  rsiVal : TACall (Option ℚ)
  obvSeries : TACall (List ℚ)
deriving DecidableEq, Repr

/-- Result record, mirroring the `TrendScoreResult` pydantic model.
`latest_date` keeps the raw date of the last bar (the source formats it as a
string with `strftime`, which is pure presentation). -/
structure TrendScoreResult where
  ticker : String
  latest_date : ℤ
  normalized_trend_score : ℚ
  weighted_raw_score : ℚ
  ma_score : ℤ
  macd_score : ℤ
  adx_score : ℤ
  rsi_score : ℤ
  obv_score : ℤ
deriving DecidableEq, Repr

/-- Python `round(x, ndigits)` on the exact rational value. -/
def pyRound (ndigits : ℕ) (x : ℚ) : ℚ :=
  ((round (x * 10 ^ ndigits) : ℤ) : ℚ) / 10 ^ ndigits

/-- The Close column of the DataFrame, selected by the scorers. -/
def closePrices (data : List PriceBar) : List ℚ :=
  data.map (fun b => b.Close)

/-- Last value of a `window`-wide rolling mean,
`series.rolling(window=window).mean().iloc[-1]`: the mean of the final
`window` entries. -/
def smaLast (window : ℕ) (series : List ℚ) : ℚ :=
  ((series.drop (series.length - window)).sum) / (window : ℚ)

/-- `SP500TrendScorer.calculate_ma_score` (trend_scorer.py lines 157-189).
The source has default arguments `short_period=20, long_period=50`; callers
in this file pass them explicitly. -/
def calculate_ma_score (data : List PriceBar) (short_period long_period : ℕ) : ℤ :=
  if data.length < long_period then 0
  else
    let closes := closePrices data
    let latest_short := smaLast short_period closes
    let latest_long := smaLast long_period closes
    let latest_price := closes.getLastD 0
    if latest_price > latest_short ∧ latest_short > latest_long then
      if (latest_short - latest_long) / latest_long > 0.05 then 3
      else if (latest_short - latest_long) / latest_long > 0.02 then 2
      else 1
    else if latest_price > latest_short then 1
    else if latest_price < latest_short ∧ latest_short < latest_long then
      if (latest_long - latest_short) / latest_long > 0.05 then -3
      else if (latest_long - latest_short) / latest_long > 0.02 then -2
      else -1
    else if latest_price < latest_short then -1
    else 0

/-- `SP500TrendScorer.calculate_macd_score` (lines 191-224).  The MACD and
signal lines are computed by the external `ta` library; `macdVals` carries
the extracted latest values (see `IndicatorInputs`).  `err` is the `except`
branch, `ok none` the `isna` branch. -/
def calculate_macd_score (data : List PriceBar) (macdVals : TACall (Option MacdVals)) : ℤ :=
  if data.length < 34 then 0
  else
    match macdVals with
    | TACall.err => 0
    | TACall.ok none => 0
    | TACall.ok (some v) =>
      if v.macd_line > v.macd_signal then
        if v.macd_line > 0 ∧ v.macd_line - v.prev_macd > 0 then 2 else 1
      else if v.macd_line < v.macd_signal then
        if v.macd_line < 0 ∧ v.macd_line - v.prev_macd < 0 then -2 else -1
      else 0

/-- `SP500TrendScorer.calculate_adx_score` (lines 226-260); the source has
default argument `period=14`. -/
def calculate_adx_score (data : List PriceBar) (period : ℕ) (adxVals : TACall (Option AdxVals)) : ℤ :=
  if data.length < period + 14 then 0
  else
    match adxVals with
    | TACall.err => 0
    | TACall.ok none => 0
    | TACall.ok (some v) =>
      if v.adx > 30 then
        if v.plus_di > v.minus_di then 2 else -2
      else if v.adx > 20 then
        if v.plus_di > v.minus_di then 1 else -1
      else 0

/-- `SP500TrendScorer.calculate_rsi_score` (lines 262-289); the source has
default argument `period=14`. -/
def calculate_rsi_score (data : List PriceBar) (period : ℕ) (rsiVal : TACall (Option ℚ)) : ℤ :=
  if data.length < period then 0
  else
    match rsiVal with
    | TACall.err => 0
    | TACall.ok none => 0
    | TACall.ok (some latest_rsi) =>
      if latest_rsi > 70 then -1
      else if latest_rsi > 60 then 1
      else if latest_rsi < 30 then 1
      else if latest_rsi < 40 then -1
      else 0

/-- Closed form of `np.polyfit(range(5), y, 1)[0]` for a length-5 vector:
the least-squares slope over x-values 0..4, namely
`sum ((x - 2) * y) / sum ((x - 2)^2)` with denominator 10. -/
def polyfitSlope5 (y : List ℚ) : ℚ :=
  (-2 * y.getD 0 0 - y.getD 1 0 + y.getD 3 0 + 2 * y.getD 4 0) / 10

/-- `SP500TrendScorer.calculate_obv_score` (lines 291-316).  `obvSeries`
carries the `on_balance_volume()` series computed by the external `ta`
library (same length as the data when the call succeeds); `err` is the
`except` branch. -/
def calculate_obv_score (data : List PriceBar) (obvSeries : TACall (List ℚ)) : ℤ :=
  if data.length < 10 then 0
  else
    match obvSeries with
    | TACall.err => 0
    | TACall.ok obv =>
      if obv.length < 5 then 0
      else
        let recent_obv := obv.drop (obv.length - 5)
        let obv_trend := polyfitSlope5 recent_obv
        if obv_trend > 0 then 1
        else if obv_trend < 0 then -1
        else 0

/-- The uniform per-indicator weight `self.weight = 2.1 / 9` set in
`SP500TrendScorer.__init__`. -/
def weight : ℚ := 2.1 / 9

/-- Date of the last bar, `data.index[-1]`. -/
def lastBarDate (data : List PriceBar) : ℤ :=
  (data.getLastD ⟨0, 0, 0, 0, 0, 0⟩).date

/-- `SP500TrendScorer.calculate_trend_score` (lines 318-349).  The fetched
series (`get_stock_data`, a network call) is passed in as `data` (`none`
models a failed fetch), and the external indicator values as `ind`. -/
def calculate_trend_score (ticker : String) (data : Option (List PriceBar))
    (ind : IndicatorInputs) : Option TrendScoreResult :=
  match data with
  | none => none
  | some d =>
    if d.length < 50 then none
    else
      let ma_score := calculate_ma_score d 20 50
      let macd_score := calculate_macd_score d ind.macdVals
      let adx_score := calculate_adx_score d 14 ind.adxVals
      let rsi_score := calculate_rsi_score d 14 ind.rsiVal
      let obv_score := calculate_obv_score d ind.obvSeries
      let weighted_raw_score : ℚ :=
        ((ma_score + macd_score + adx_score + rsi_score + obv_score : ℤ) : ℚ) * weight
      let normalized_score : ℚ := (weighted_raw_score + 2.1) / 4.2 * 100
      let normalized_clamped : ℚ := max 0 (min 100 normalized_score)
      some
        { ticker := ticker
          latest_date := lastBarDate d
          normalized_trend_score := pyRound 2 normalized_clamped
          weighted_raw_score := pyRound 3 weighted_raw_score
          ma_score := ma_score
          macd_score := macd_score
          adx_score := adx_score
          rsi_score := rsi_score
          obv_score := obv_score }

/-- Per-ticker input of a batch run: the ticker string together with the
outcome of its data fetch and of its external indicator computations. -/
structure TickerInput where
  ticker : String
  data : Option (List PriceBar)
  ind : IndicatorInputs
deriving DecidableEq

/-- The results list accumulated by the loop of `calculate_batch_scores`
before sorting: tickers whose `calculate_trend_score` returns `None` are
skipped (`if score_data:`). -/
def survivors (inputs : List TickerInput) : List TrendScoreResult :=
  inputs.filterMap (fun inp => calculate_trend_score inp.ticker inp.data inp.ind)

/-- Ordering used by the final sort of `calculate_batch_scores`:
`a` may come before `b` when the normalized score of `a` is at least the
normalized score of `b`. -/
def scoreGE (a b : TrendScoreResult) : Prop :=
  b.normalized_trend_score ≤ a.normalized_trend_score

instance : DecidableRel scoreGE :=
  fun a b => inferInstanceAs (Decidable (b.normalized_trend_score ≤ a.normalized_trend_score))

instance : IsTotal TrendScoreResult scoreGE :=
  ⟨fun a b => le_total b.normalized_trend_score a.normalized_trend_score⟩

instance : IsTrans TrendScoreResult scoreGE :=
  ⟨fun _ _ _ hab hbc => le_trans hbc hab⟩

/-- `SP500TrendScorer.calculate_batch_scores` (lines 351-370).  The final
sort of the source, by normalized_trend_score with reverse=True, has the
stable descending-sort semantics of Python; `List.insertionSort scoreGE` implements
exactly that semantics: sorted descending by score, ties kept in first-seen
order (stability is proved below). -/
def calculate_batch_scores (inputs : List TickerInput) : List TrendScoreResult :=
  List.insertionSort scoreGE (survivors inputs)

/-- Boolean test used to state sort stability: does `r` carry the
normalized score `c`? -/
def hasScore (c : ℚ) (r : TrendScoreResult) : Bool :=
  decide (r.normalized_trend_score = c)

/-- Externally visible side effect of the batch loop: a rate-limiting delay
or an HTTP data fetch for one ticker. -/
inductive BatchEvent where
  | sleepFor (seconds : ℚ) : BatchEvent
  | httpFetch (ticker : String) : BatchEvent
deriving DecidableEq, Repr

/-- Predicate picking out delay events of a trace. -/
def isSleepEvent : BatchEvent → Bool
  | BatchEvent.sleepFor _ => true
  | BatchEvent.httpFetch _ => false

/-- Trace of external side effects performed by `calculate_batch_scores`
(lines 351-370), read off the source: each loop iteration calls
`calculate_trend_score`, which calls `get_stock_data` (lines 121-155),
which issues the HTTP request(s) for that ticker (modelled as one
`httpFetch` event).  Neither the loop, nor `calculate_trend_score`, nor
`get_stock_data` contains any sleep/delay call (the module does not use
the time module at all), so no `sleepFor` event is ever emitted. -/
def batch_event_trace (tickers : List String) : List BatchEvent :=
  tickers.map (fun t => BatchEvent.httpFetch t)

/-- Aggregation written exactly as the specification document words it
(§4.3): `weighted_raw = (2.1/9) * (ma+macd+adx+rsi+obv)`,
`normalized = clamp(((weighted_raw + 2.1) / 4.2) * 100, 0, 100)`, the pair
rounded once at the end — normalized to 2 decimals, weighted_raw to 3. -/
def spec_aggregate (ma_score macd_score adx_score rsi_score obv_score : ℤ) : ℚ × ℚ :=
  let weighted_raw : ℚ :=
    (2.1 / 9) * ((ma_score + macd_score + adx_score + rsi_score + obv_score : ℤ) : ℚ)
  let normalized : ℚ := max 0 (min 100 ((weighted_raw + 2.1) / 4.2 * 100))
  (pyRound 2 normalized, pyRound 3 weighted_raw)

/-- A flat bar: all four prices `c`, volume 1. -/
def mkBar (i : ℤ) (c : ℚ) : PriceBar :=
  ⟨i, c, c, c, c, 1⟩

/-- Concrete 50-bar series, every close equal to 10. -/
def data50 : List PriceBar :=
  (List.range 50).map (fun (i : ℕ) => mkBar (i : ℤ) 10)

/-- Concrete 49-bar series, one bar below the floor of the engine. -/
def bars49 : List PriceBar :=
  (List.range 49).map (fun (i : ℕ) => mkBar (i : ℤ) 10)

/-- Concrete 50-bar series whose 20-bar and 50-bar SMAs are both exactly 10
while the last close is 29: thirty closes of 10, nineteen of 9, one of 29. -/
def barsMaOne : List PriceBar :=
  (List.range 30).map (fun (i : ℕ) => mkBar (i : ℤ) 10)
    ++ (List.range 19).map (fun (i : ℕ) => mkBar ((30 : ℤ) + (i : ℤ)) 9)
    ++ [mkBar 49 29]

/-- Indicator inputs in which every external library call raises. -/
def indAllErr : IndicatorInputs :=
  ⟨TACall.err, TACall.err, TACall.err, TACall.err⟩

/-- Indicator inputs chosen so that (on a series like `barsMaOne`) every
scorer returns exactly 1: MACD above signal but falling, ADX 25 with
+DI above −DI, RSI 65, OBV series with positive slope over its last 5. -/
def indAllOne : IndicatorInputs :=
  ⟨TACall.ok (some ⟨1, 1/2, 2⟩),
   TACall.ok (some ⟨25, 2, 1⟩),
   TACall.ok (some 65),
   TACall.ok [1, 2, 3, 4, 5]⟩

/-- The result `calculate_trend_score` produces on `data50` with
`indAllErr`: every component 0, normalized score exactly 50. -/
def trendResult0 : TrendScoreResult :=
  ⟨"A", 49, 50, 0, 0, 0, 0, 0, 0⟩

/-! ## Helper lemmas -/

lemma data50_length : data50.length = 50 := by
  simp only [data50, List.length_map, List.length_range]

lemma bars49_length : bars49.length = 49 := by
  simp only [bars49, List.length_map, List.length_range]

lemma barsMaOne_length : barsMaOne.length = 50 := by
  simp only [barsMaOne, List.length_append, List.length_map, List.length_range,
    List.length_cons, List.length_nil]

lemma pyRound2_bounds {x : ℚ} (h0 : 0 ≤ x) (h100 : x ≤ 100) :
    0 ≤ pyRound 2 x ∧ pyRound 2 x ≤ 100 := by
  have hlb : (0 : ℤ) ≤ round (x * 10 ^ 2) := by
    rw [round_eq, Int.le_floor]
    push_cast
    linarith
  have hub : round (x * 10 ^ 2) ≤ 10000 := by
    have h1 : round (x * 10 ^ 2) < 10001 := by
      rw [round_eq, Int.floor_lt]
      push_cast
      linarith
    omega
  unfold pyRound
  constructor
  · apply div_nonneg _ (by positivity)
    exact_mod_cast hlb
  · rw [div_le_iff₀ (by positivity)]
    have h2 : ((round (x * 10 ^ 2) : ℤ) : ℚ) ≤ 10000 := by exact_mod_cast hub
    linarith

lemma calculate_ma_score_range (d : List PriceBar) (sp lp : ℕ) :
    -3 ≤ calculate_ma_score d sp lp ∧ calculate_ma_score d sp lp ≤ 3 := by
  simp only [calculate_ma_score]
  split_ifs <;> norm_num

lemma calculate_macd_score_range (d : List PriceBar) (mv : TACall (Option MacdVals)) :
    -2 ≤ calculate_macd_score d mv ∧ calculate_macd_score d mv ≤ 2 := by
  rcases mv with (_ | v) | _ <;> simp only [calculate_macd_score] <;> split_ifs <;> norm_num

lemma calculate_adx_score_range (d : List PriceBar) (p : ℕ) (av : TACall (Option AdxVals)) :
    -2 ≤ calculate_adx_score d p av ∧ calculate_adx_score d p av ≤ 2 := by
  rcases av with (_ | v) | _ <;> simp only [calculate_adx_score] <;> split_ifs <;> norm_num

lemma calculate_rsi_score_range (d : List PriceBar) (p : ℕ) (rv : TACall (Option ℚ)) :
    -1 ≤ calculate_rsi_score d p rv ∧ calculate_rsi_score d p rv ≤ 1 := by
  rcases rv with (_ | v) | _ <;> simp only [calculate_rsi_score] <;> split_ifs <;> norm_num

lemma calculate_obv_score_range (d : List PriceBar) (ov : TACall (List ℚ)) :
    -1 ≤ calculate_obv_score d ov ∧ calculate_obv_score d ov ≤ 1 := by
  rcases ov with l | _ <;> simp only [calculate_obv_score] <;> split_ifs <;> norm_num

lemma filter_hasScore_orderedInsert (c : ℚ) (x : TrendScoreResult)
    (l : List TrendScoreResult) :
    (List.orderedInsert scoreGE x l).filter (hasScore c)
      = if hasScore c x then x :: l.filter (hasScore c) else l.filter (hasScore c) := by
  induction l with
  | nil => cases hx : hasScore c x <;> simp [List.orderedInsert, hx]
  | cons b t ih =>
    by_cases hxb : scoreGE x b
    · rw [List.orderedInsert, if_pos hxb]
      cases hx : hasScore c x <;> simp [List.filter_cons, hx]
    · rw [List.orderedInsert, if_neg hxb, List.filter_cons]
      cases hx : hasScore c x
      · simp [ih, hx, List.filter_cons]
      · have hlt : x.normalized_trend_score < b.normalized_trend_score := by
          have hxb' : ¬ b.normalized_trend_score ≤ x.normalized_trend_score := hxb
          exact lt_of_not_le hxb'
        have hxc : x.normalized_trend_score = c := by
          simpa [hasScore] using hx
        have hbc : hasScore c b = false := by
          simp only [hasScore, decide_eq_false_iff_not]
          exact ne_of_gt (hxc ▸ hlt)
        simp [ih, hx, hbc, List.filter_cons]

lemma filter_hasScore_insertionSort (c : ℚ) (l : List TrendScoreResult) :
    (List.insertionSort scoreGE l).filter (hasScore c) = l.filter (hasScore c) := by
  induction l with
  | nil => rfl
  | cons x t ih =>
    rw [List.insertionSort, filter_hasScore_orderedInsert, List.filter_cons, ih]

/-! ## Claim theorems -/

/-- C1.  For every five-tuple of component scores produced by a successful
`calculate_trend_score` call, the resulting pair (normalized, weighted_raw)
equals the aggregation `spec_aggregate` of the specification: weighted_raw is
`(2.1/9) * (ma+macd+adx+rsi+obv)`, normalized is
`clamp(((weighted_raw + 2.1) / 4.2) * 100, 0, 100)`, and the rounding — 2
decimals for normalized, 3 for weighted_raw — is applied exactly once, to
the exact aggregated values, never to an intermediate. -/
theorem trend_score_matches_spec_aggregate (t : String) (d : List PriceBar)
    (ind : IndicatorInputs) (r : TrendScoreResult)
    (h : calculate_trend_score t (some d) ind = some r) :
    (r.normalized_trend_score, r.weighted_raw_score)
      = spec_aggregate r.ma_score r.macd_score r.adx_score r.rsi_score r.obv_score := by
  by_cases hlen : d.length < 50
  · simp only [calculate_trend_score, if_pos hlen] at h
    exact absurd h (by simp)
  · simp only [calculate_trend_score, if_neg hlen] at h
    rw [Option.some.injEq] at h
    subst h
    simp only [spec_aggregate, weight, Prod.mk.injEq]
    norm_num [mul_comm]

/-- C1 witness: the theorem applied to the concrete flat 50-bar series with
all external indicator calls raising. -/
theorem trend_score_matches_spec_aggregate_witness :
    (trendResult0.normalized_trend_score, trendResult0.weighted_raw_score)
      = spec_aggregate trendResult0.ma_score trendResult0.macd_score trendResult0.adx_score
          trendResult0.rsi_score trendResult0.obv_score :=
  trend_score_matches_spec_aggregate "A" data50 indAllErr trendResult0 (by
    norm_num [calculate_trend_score, calculate_ma_score, calculate_macd_score,
      calculate_adx_score, calculate_rsi_score, calculate_obv_score, closePrices, smaLast,
      lastBarDate, data50, indAllErr, trendResult0, mkBar, weight, pyRound, round_eq,
      List.range_succ])

/-- C2.  Every result produced by `calculate_trend_score` (hence from a
fetched series of at least 50 bars) has `ma_score ∈ [-3,3]`,
`macd_score ∈ [-2,2]`, `adx_score ∈ [-2,2]`, `rsi_score ∈ [-1,1]`,
`obv_score ∈ [-1,1]`, and `normalized_trend_score ∈ [0,100]`. -/
theorem trend_score_component_ranges (t : String) (d : List PriceBar)
    (ind : IndicatorInputs) (r : TrendScoreResult)
    (h : calculate_trend_score t (some d) ind = some r) :
    (-3 ≤ r.ma_score ∧ r.ma_score ≤ 3)
    ∧ (-2 ≤ r.macd_score ∧ r.macd_score ≤ 2)
    ∧ (-2 ≤ r.adx_score ∧ r.adx_score ≤ 2)
    ∧ (-1 ≤ r.rsi_score ∧ r.rsi_score ≤ 1)
    ∧ (-1 ≤ r.obv_score ∧ r.obv_score ≤ 1)
    ∧ (0 ≤ r.normalized_trend_score ∧ r.normalized_trend_score ≤ 100) := by
  by_cases hlen : d.length < 50
  · simp only [calculate_trend_score, if_pos hlen] at h
    exact absurd h (by simp)
  · simp only [calculate_trend_score, if_neg hlen] at h
    rw [Option.some.injEq] at h
    subst h
    refine ⟨calculate_ma_score_range d 20 50, calculate_macd_score_range d _,
      calculate_adx_score_range d 14 _, calculate_rsi_score_range d 14 _,
      calculate_obv_score_range d _, ?_⟩
    exact pyRound2_bounds (le_max_left 0 _) (max_le (by norm_num) (min_le_left _ _))

/-- C2 witness: the theorem applied to the concrete flat 50-bar series with
all external indicator calls raising. -/
theorem trend_score_component_ranges_witness :
    (-3 ≤ trendResult0.ma_score ∧ trendResult0.ma_score ≤ 3)
    ∧ (-2 ≤ trendResult0.macd_score ∧ trendResult0.macd_score ≤ 2)
    ∧ (-2 ≤ trendResult0.adx_score ∧ trendResult0.adx_score ≤ 2)
    ∧ (-1 ≤ trendResult0.rsi_score ∧ trendResult0.rsi_score ≤ 1)
    ∧ (-1 ≤ trendResult0.obv_score ∧ trendResult0.obv_score ≤ 1)
    ∧ (0 ≤ trendResult0.normalized_trend_score ∧ trendResult0.normalized_trend_score ≤ 100) :=
  trend_score_component_ranges "A" data50 indAllErr trendResult0 (by
    norm_num [calculate_trend_score, calculate_ma_score, calculate_macd_score,
      calculate_adx_score, calculate_rsi_score, calculate_obv_score, closePrices, smaLast,
      lastBarDate, data50, indAllErr, trendResult0, mkBar, weight, pyRound, round_eq,
      List.range_succ])

/-- C3.  `calculate_trend_score` returns `none` exactly when the fetched
series is `none` or has fewer than 50 bars; in particular the concrete
49-bar series yields `none` and the concrete 50-bar series yields a
result, for every choice of external indicator inputs. -/
theorem trend_score_none_iff_insufficient (t : String) (ind : IndicatorInputs) :
    calculate_trend_score t none ind = none
    ∧ (∀ d : List PriceBar, calculate_trend_score t (some d) ind = none ↔ d.length < 50)
    ∧ calculate_trend_score t (some bars49) ind = none
    ∧ (calculate_trend_score t (some data50) ind).isSome = true := by
  refine ⟨rfl, ?_, ?_, ?_⟩
  · intro d
    simp only [calculate_trend_score]
    split_ifs with hd
    · simp [hd]
    · simp [hd]
  · norm_num [calculate_trend_score, bars49_length]
  · norm_num [calculate_trend_score, data50_length]

/-- C4 counterexample: on a series of 50 bars, a latest RSI of exactly 70.0
makes `calculate_rsi_score` return 1 (the `>60` bullish bucket), not the
claimed 0. -/
theorem rsi_at_70_scores_one :
    calculate_rsi_score data50 14 (TACall.ok (some 70)) = 1 := by
  norm_num [calculate_rsi_score, data50_length]

/-- C4 amended.  For a series of at least 14 bars, a latest RSI value in
the bucket `60 < RSI ≤ 70` — in particular exactly 70.0 — scores 1 (only
RSI strictly greater than 70 triggers the overbought score −1), and a
latest RSI of 70.01 scores −1. -/
theorem rsi_boundary_amended (d : List PriceBar) (rv : ℚ) (hlen : 14 ≤ d.length)
    (h60 : 60 < rv) (h70 : rv ≤ 70) :
    calculate_rsi_score d 14 (TACall.ok (some rv)) = 1
    ∧ calculate_rsi_score d 14 (TACall.ok (some (70.01 : ℚ))) = -1 := by
  have hg : ¬ d.length < 14 := by omega
  constructor
  · simp only [calculate_rsi_score, if_neg hg]
    rw [if_neg (by linarith), if_pos h60]
  · simp only [calculate_rsi_score, if_neg hg]
    rw [if_pos (by norm_num)]

/-- C4 witness: the amended theorem applied to the concrete 50-bar series
at RSI exactly 70. -/
theorem rsi_boundary_amended_witness :
    calculate_rsi_score data50 14 (TACall.ok (some 70)) = 1
    ∧ calculate_rsi_score data50 14 (TACall.ok (some (70.01 : ℚ))) = -1 :=
  rsi_boundary_amended data50 70 (by rw [data50_length]; norm_num)
    (by norm_num) (by norm_num)

/-- C5 counterexample: on the concrete 50-bar series `barsMaOne` with
indicator inputs making every component score equal to 1, the normalized
score is 77.78, not the claimed 50.00. -/
theorem equal_scores_not_always_fifty :
    calculate_trend_score "A" (some barsMaOne) indAllOne
      = some ⟨"A", 49, 3889/50, 1167/1000, 1, 1, 1, 1, 1⟩ := by
  norm_num [calculate_trend_score, calculate_ma_score, calculate_macd_score,
    calculate_adx_score, calculate_rsi_score, calculate_obv_score, closePrices, smaLast,
    lastBarDate, barsMaOne, indAllOne, mkBar, weight, pyRound, polyfitSlope5, round_eq,
    List.range_succ]

/-- C5 amended.  Every result whose five component scores sum to zero — in
particular the all-zero five-tuple — has `normalized_trend_score` equal to
50.00 exactly; equal nonzero component tuples give other values. -/
theorem zero_sum_scores_give_fifty (t : String) (d : List PriceBar)
    (ind : IndicatorInputs) (r : TrendScoreResult)
    (h : calculate_trend_score t (some d) ind = some r)
    (hsum : r.ma_score + r.macd_score + r.adx_score + r.rsi_score + r.obv_score = 0) :
    r.normalized_trend_score = 50 := by
  by_cases hlen : d.length < 50
  · simp only [calculate_trend_score, if_pos hlen] at h
    exact absurd h (by simp)
  · simp only [calculate_trend_score, if_neg hlen] at h
    rw [Option.some.injEq] at h
    subst h
    simp only at hsum
    rw [hsum]
    norm_num [weight, pyRound, round_eq]

/-- C5 witness: the amended theorem applied to the concrete flat 50-bar
series with all external indicator calls raising (all components 0). -/
theorem zero_sum_scores_give_fifty_witness :
    trendResult0.normalized_trend_score = 50 :=
  zero_sum_scores_give_fifty "A" data50 indAllErr trendResult0
    (by norm_num [calculate_trend_score, calculate_ma_score, calculate_macd_score,
      calculate_adx_score, calculate_rsi_score, calculate_obv_score, closePrices, smaLast,
      lastBarDate, data50, indAllErr, trendResult0, mkBar, weight, pyRound, round_eq,
      List.range_succ])
    (by norm_num [trendResult0])

/-- C6.  `calculate_batch_scores` keeps exactly the tickers whose
`calculate_trend_score` is non-null (the `survivors`), returns a
permutation of them sorted descending by `normalized_trend_score`
(`scoreGE`), and is stable: for every score value `c`, the sub-list of
results carrying `c` appears in the same order as among the survivors,
i.e. in first-seen input order. -/
theorem batch_scores_ranked_stable (inputs : List TickerInput) :
    (calculate_batch_scores inputs).Perm (survivors inputs)
    ∧ List.Sorted scoreGE (calculate_batch_scores inputs)
    ∧ (∀ c : ℚ, (calculate_batch_scores inputs).filter (hasScore c)
        = (survivors inputs).filter (hasScore c)) :=
  ⟨List.perm_insertionSort scoreGE (survivors inputs),
   List.sorted_insertionSort scoreGE (survivors inputs),
   fun c => filter_hasScore_insertionSort c (survivors inputs)⟩

/-- C7.  Each of the four scorers that call into the external `ta`/`numpy`
library maps a raised exception (`TACall.err`, the `except` branch) to the
neutral score 0, for every series and period — no scorer propagates an
exception.  (`calculate_ma_score` contains no fallible library call: it is
a total function of the series by construction.) -/
theorem scorers_map_exceptions_to_zero (d : List PriceBar) (p q : ℕ) :
    calculate_macd_score d TACall.err = 0
    ∧ calculate_adx_score d p TACall.err = 0
    ∧ calculate_rsi_score d q TACall.err = 0
    ∧ calculate_obv_score d TACall.err = 0 := by
  refine ⟨?_, ?_, ?_, ?_⟩ <;> simp only [calculate_macd_score, calculate_adx_score,
    calculate_rsi_score, calculate_obv_score] <;> split_ifs <;> rfl

/-- C8.  Each scorer returns the neutral score 0 whenever the series is
shorter than its documented minimum: 50 bars for MA, 34 for MACD, 28 for
ADX at the default period 14, 14 for RSI, 10 for OBV — regardless of the
externally computed indicator values. -/
theorem scorers_min_length_guards (d : List PriceBar) (mv : TACall (Option MacdVals))
    (av : TACall (Option AdxVals)) (rv : TACall (Option ℚ)) (ov : TACall (List ℚ)) :
    (d.length < 50 → calculate_ma_score d 20 50 = 0)
    ∧ (d.length < 34 → calculate_macd_score d mv = 0)
    ∧ (d.length < 28 → calculate_adx_score d 14 av = 0)
    ∧ (d.length < 14 → calculate_rsi_score d 14 rv = 0)
    ∧ (d.length < 10 → calculate_obv_score d ov = 0) := by
  refine ⟨fun h => ?_, fun h => ?_, fun h => ?_, fun h => ?_, fun h => ?_⟩
  · simp [calculate_ma_score, h]
  · simp [calculate_macd_score, h]
  · have h' : d.length < 14 + 14 := by omega
    simp [calculate_adx_score, h']
  · simp [calculate_rsi_score, h]
  · simp [calculate_obv_score, h]

/-- C8 witness: the guards applied to the empty series with successful
(non-exceptional) indicator inputs. -/
theorem scorers_min_length_guards_witness :
    calculate_ma_score [] 20 50 = 0
    ∧ calculate_macd_score [] (TACall.ok (some ⟨5, 1, 1⟩)) = 0
    ∧ calculate_adx_score [] 14 (TACall.ok (some ⟨40, 5, 1⟩)) = 0
    ∧ calculate_rsi_score [] 14 (TACall.ok (some 65)) = 0
    ∧ calculate_obv_score [] (TACall.ok [1, 2, 3, 4, 5]) = 0 := by
  obtain ⟨h1, h2, h3, h4, h5⟩ := scorers_min_length_guards []
    (TACall.ok (some ⟨5, 1, 1⟩)) (TACall.ok (some ⟨40, 5, 1⟩))
    (TACall.ok (some 65)) (TACall.ok [1, 2, 3, 4, 5])
  exact ⟨h1 (by simp), h2 (by simp), h3 (by simp), h4 (by simp), h5 (by simp)⟩

/-- C9 counterexample: the side-effect trace of a concrete two-ticker batch
run consists of the two HTTP fetches only — it contains no delay event at
all, refuting the claim that a ~1.5s delay is imposed before each fetch. -/
theorem batch_trace_no_delay_concrete :
    batch_event_trace ["AAPL", "MSFT"]
      = [BatchEvent.httpFetch "AAPL", BatchEvent.httpFetch "MSFT"]
    ∧ (batch_event_trace ["AAPL", "MSFT"]).filter isSleepEvent = [] :=
  ⟨rfl, rfl⟩

/-- C9 amended.  `calculate_batch_scores` imposes no inter-request delay:
its side-effect trace is exactly the per-ticker HTTP fetches in input
order, with no sleep event (the 1.5s sleep in the repository lives in
`scripts/load_market_data.py`, outside the scoring engine). -/
theorem batch_trace_has_no_sleep (tickers : List String) :
    batch_event_trace tickers = tickers.map BatchEvent.httpFetch
    ∧ (batch_event_trace tickers).filter isSleepEvent = [] := by
  refine ⟨rfl, ?_⟩
  induction tickers with
  | nil => rfl
  | cons t ts ih => simp [batch_event_trace, isSleepEvent, List.filter_cons]

/-- C10.  When the 20-bar and 50-bar SMAs are exactly equal on a series of
at least 50 bars: a last close strictly above them scores 1 (not 0), a
last close strictly below scores −1, and the score is 0 exactly when the
last close equals the tied SMAs (neither strictly above nor below). -/
theorem ma_tie_scores_by_price (d : List PriceBar) (hlen : 50 ≤ d.length)
    (heq : smaLast 20 (closePrices d) = smaLast 50 (closePrices d)) :
    ((closePrices d).getLastD 0 > smaLast 20 (closePrices d) → calculate_ma_score d 20 50 = 1)
    ∧ ((closePrices d).getLastD 0 < smaLast 20 (closePrices d) → calculate_ma_score d 20 50 = -1)
    ∧ (calculate_ma_score d 20 50 = 0
        ↔ (closePrices d).getLastD 0 = smaLast 20 (closePrices d)) := by
  have hg : ¬ d.length < 50 := by omega
  have hred : calculate_ma_score d 20 50
      = if (closePrices d).getLastD 0 > smaLast 20 (closePrices d) then 1
        else if (closePrices d).getLastD 0 < smaLast 20 (closePrices d) then -1
        else 0 := by
    simp only [calculate_ma_score, if_neg hg, ← heq]
    simp [lt_irrefl]
  rw [hred]
  refine ⟨fun hp => if_pos hp, fun hp => ?_, ?_⟩
  · rw [if_neg (asymm hp), if_pos hp]
  · rcases lt_trichotomy ((closePrices d).getLastD 0) (smaLast 20 (closePrices d))
      with hc | hc | hc
    · rw [if_neg (asymm hc), if_pos hc]
      exact iff_of_false (by norm_num) (ne_of_lt hc)
    · rw [if_neg (by rw [hc]; exact lt_irrefl _), if_neg (by rw [hc]; exact lt_irrefl _)]
      exact iff_of_true rfl hc
    · rw [if_pos hc]
      exact iff_of_false (by norm_num) (ne_of_gt hc)

/-- C10 witness: on the concrete series `barsMaOne` the two SMAs are both
10, the last close 29 is strictly above them, and the MA score is 1. -/
theorem ma_tie_scores_by_price_witness :
    (closePrices barsMaOne).getLastD 0 > smaLast 20 (closePrices barsMaOne)
    ∧ calculate_ma_score barsMaOne 20 50 = 1 := by
  have hp : (closePrices barsMaOne).getLastD 0 > smaLast 20 (closePrices barsMaOne) := by
    norm_num [smaLast, closePrices, barsMaOne, mkBar, List.range_succ]
  exact ⟨hp, (ma_tie_scores_by_price barsMaOne (by rw [barsMaOne_length])
    (by norm_num [smaLast, closePrices, barsMaOne, mkBar, List.range_succ])).1 hp⟩
